import Mathlib

/-!
Verification of the `alpm.rs` libalpm binding layer (`src/alpm/src/db.rs`,
`src/alpm/src/version.rs`) via a shallow embedding.

Byte strings are `List Nat` (a Rust `String` may contain any byte except
that `CString::new` rejects an embedded NUL).  Native-library state is
modelled explicitly: an `AlpmState` carries the database registry, the
process-wide last-error code, the set of native lists allocated by the
binding itself, and a trace of native calls (used to express "no native
call is attempted").  A `NativeDb` carries the data libalpm owns for one
registered database: its name, ordered server list, package cache and
group cache, together with the pointer identities of the native lists,
and oracles for the native search.

Functions named after the Rust items (`Alpm.register_syncdb`,
`Db.servers`, `vercmp`, ...) are translated from the source; definitions
whose doc comment starts with "Modelled from the spec:" stand for code of
the crate that is not part of the two source files (the `utils` module,
the `Error` type, the `AlpmList` drop glue) or for the external native
library, and follow the specification's words.
-/

namespace AlpmRs

/-- A byte string: the bytes of a Rust `String` / C string payload. -/
abbrev Str := List Nat

/-- A native pointer identity; `0` is the null pointer. -/
abbrev Ptr := Nat

/-- The `FreeMethod` tag of `AlpmList` (crate enum, outside the two source
files but named and used by them): cleanup policy applied at end-of-life. -/
inductive FreeMethod
  | None
  | FreeList
  | FreeFull
deriving DecidableEq, Repr

/-- The crate's error type.  Modelled from the spec: the real enum is not
under `src/`; the spec names `InvalidName` for the embedded-NUL
`CString` conversion failure and a typed error carrying the native error
code for native failures. -/
inductive Error
  | InvalidName
  | Native (code : Nat)
deriving DecidableEq, Repr

/-- `Result<T>` of the crate. -/
abbrev Result (α : Type) := Except Error α

/-- A native package-cache entry, owned by libalpm. -/
structure NativePkg where
  name : Str
  ptr : Ptr
deriving DecidableEq, Repr

/-- A native group-cache entry, owned by libalpm. -/
structure NativeGrp where
  name : Str
  ptr : Ptr
deriving DecidableEq, Repr

/-- Native per-database state owned by libalpm.  Modelled from the spec:
libalpm is the external collaborator; a database carries its name, the
ordered server-URL list (with the pointer identity of that native list),
the package cache and group cache (with their list pointer identities),
and oracles giving the native search's result pointer (`0` = failure)
and result contents. -/
structure NativeDb where
  name : Str
  servers : List Str
  serversPtr : Ptr
  pkgcache : List NativePkg
  pkgcachePtr : Ptr
  groupcache : List NativeGrp
  groupcachePtr : Ptr
  searchImpl : List Str → Ptr
  searchContent : List Str → List NativePkg

/-- Process-wide native state.  Modelled from the spec: the registry of
registered sync databases, the process-wide last-error code consulted by
`check_null`/`check_ret`, a fresh-pointer counter, the set of native
lists currently allocated by the binding itself (temporary string lists),
and a trace of the native calls performed. -/
structure AlpmState where
  dbs : List NativeDb
  lastError : Nat
  nextPtr : Ptr
  allocated : List Ptr
  trace : List String

/-- Append one native call to the trace. -/
def log (st : AlpmState) (call : String) : AlpmState :=
  { st with trace := st.trace ++ [call] }

/-- `CString::new`: fails exactly when the byte string contains an
embedded NUL.  Modelled from the spec: the `From<NulError>` conversion
into the crate error is not under `src/`; the spec says the failure
surfaces as a conversion error (`InvalidName`). -/
def cstring_new (s : Str) : Result Str :=
  if 0 ∈ s then .error .InvalidName else .ok s

/-- `Alpm::check_null` on a raw list pointer.  Modelled from the spec:
translates a null native pointer into the last native error code as a
typed error. -/
def check_null_ptr (st : AlpmState) (p : Ptr) : Result Unit :=
  if p = 0 then .error (.Native st.lastError) else .ok ()

/-- `Alpm::check_null` on a nullable native entry.  Modelled from the
spec: same null-to-last-error translation, for calls whose non-null
result we model directly as the entry. -/
def check_null_res (st : AlpmState) (x : Option α) : Result α :=
  match x with
  | none => .error (.Native st.lastError)
  | some v => .ok v

/-- `Alpm::check_ret`.  Modelled from the spec: translates a non-zero
return code into a typed error via the last native error code. -/
def check_ret (st : AlpmState) (ret : Int) : Result Unit :=
  if ret = 0 then .ok () else .error (.Native st.lastError)

/-- `utils::to_strlist`.  Modelled from the spec: builds a temporary
native string list from the inputs, failing with a conversion error if
any entry contains an embedded NUL; on success a fresh native list is
allocated by the binding (recorded in `allocated`). -/
def to_strlist (st : AlpmState) (l : List Str) : Result (Ptr × AlpmState) :=
  if ∃ s ∈ l, 0 ∈ s then .error .InvalidName
  else .ok (st.nextPtr,
    { st with nextPtr := st.nextPtr + 1, allocated := st.allocated ++ [st.nextPtr] })

/-- `alpm_list_free`.  Modelled from the spec: releases the nodes of the
native list `p`; the binding no longer holds that allocation. -/
def alpm_list_free (st : AlpmState) (p : Ptr) : AlpmState :=
  { st with allocated := st.allocated.filter (fun q => q != p),
            trace := st.trace ++ ["alpm_list_free"] }

/-- The `AlpmList<T>` view (crate struct, outside the two source files
but constructed field-by-field in them): a native list pointer, the
elements that native list currently holds, and the free policy. -/
structure AlpmList (α : Type) where
  item : Ptr
  content : List α
  free : FreeMethod
deriving Repr

/-- What dropping an `AlpmList` releases. -/
inductive DropEffect
  | nothing
  | nodesOnly (p : Ptr)
  | nodesAndItems (p : Ptr)
deriving DecidableEq, Repr

/-- End-of-life behavior of an `AlpmList`.  Modelled from the spec: the
adapter applies its free policy exactly once at end-of-life — policy
`None` frees nothing, `FreeList` frees only the list nodes, `FreeFull`
frees nodes and contained items. -/
def AlpmList.dropEffect (l : AlpmList α) : DropEffect :=
  match l.free with
  | .None => .nothing
  | .FreeList => .nodesOnly l.item
  | .FreeFull => .nodesAndItems l.item

/-- The `Package` wrapper as built in `db.rs`: the native package entry
it borrows, and the `drop` flag ("should this wrapper instance trigger a
deep free on drop"). -/
structure Package where
  pkg : NativePkg
  drop : Bool
deriving DecidableEq, Repr

/-- The `Group` wrapper as built in `db.rs`: the native group entry it
borrows. -/
structure Group where
  inner : NativeGrp
deriving DecidableEq, Repr

/-! ### Native libalpm calls (all modelled from the spec) -/

/-- A fresh `NativeDb` as registration creates it: the given name, no
servers yet (an empty native list is the null pointer), caches not yet
loaded. -/
def newDb (name : Str) : NativeDb :=
  { name := name, servers := [], serversPtr := 0,
    pkgcache := [], pkgcachePtr := 0,
    groupcache := [], groupcachePtr := 0,
    searchImpl := fun _ => 0, searchContent := fun _ => [] }

/-- `alpm_register_syncdb`.  Modelled from the spec: registers a new
entry in the native database registry; fails (returns null) on a
duplicate name. -/
def alpm_register_syncdb (st : AlpmState) (name : Str) (_sig : Nat) :
    Option NativeDb × AlpmState :=
  if st.dbs.any (fun d => d.name == name) then
    (none, log st "alpm_register_syncdb")
  else
    (some (newDb name),
     { log st "alpm_register_syncdb" with dbs := st.dbs ++ [newDb name] })

/-- `alpm_db_get_name`.  Modelled from the spec: returns the database's
identifier. -/
def alpm_db_get_name (st : AlpmState) (db : NativeDb) : Str × AlpmState :=
  (db.name, log st "alpm_db_get_name")

/-- `alpm_db_unregister`.  Modelled from the spec: the native library
forgets the database. -/
def alpm_db_unregister (st : AlpmState) (db : NativeDb) : Int × AlpmState :=
  (0, { log st "alpm_db_unregister" with
        dbs := st.dbs.filter (fun d => d.name != db.name) })

/-- `alpm_db_add_server`.  Modelled from the spec: appends the URL to the
ordered server list (URLs are kept in registration order). -/
def alpm_db_add_server (st : AlpmState) (db : NativeDb) (server : Str) :
    Int × NativeDb × AlpmState :=
  (0, { db with servers := db.servers ++ [server] }, log st "alpm_db_add_server")

/-- `alpm_db_remove_server`.  Modelled from the spec: removes the URL
from the server list. -/
def alpm_db_remove_server (st : AlpmState) (db : NativeDb) (server : Str) :
    Int × NativeDb × AlpmState :=
  (0, { db with servers := db.servers.filter (fun s => s != server) },
   log st "alpm_db_remove_server")

/-- `alpm_db_get_servers`.  Modelled from the spec: returns the native
server-URL list (owned by libalpm), reflecting current state. -/
def alpm_db_get_servers (st : AlpmState) (db : NativeDb) :
    Ptr × List Str × AlpmState :=
  (db.serversPtr, db.servers, log st "alpm_db_get_servers")

/-- `alpm_db_set_servers`.  Modelled from the spec: atomically replaces
the server list with the given one; ownership of the temporary native
list `p` passes to the native call, so the binding's allocation is
released here. -/
def alpm_db_set_servers (st : AlpmState) (db : NativeDb) (p : Ptr)
    (l : List Str) : Int × NativeDb × AlpmState :=
  (0, { db with servers := l },
   { log st "alpm_db_set_servers" with
     allocated := st.allocated.filter (fun q => q != p) })

/-- `alpm_db_get_pkg`.  Modelled from the spec: cache lookup by exact
name; null (here `none`) when no entry of that name exists. -/
def alpm_db_get_pkg (st : AlpmState) (db : NativeDb) (name : Str) :
    Option NativePkg × AlpmState :=
  (db.pkgcache.find? (fun p => p.name == name), log st "alpm_db_get_pkg")

/-- `alpm_db_get_pkgcache`.  Modelled from the spec: returns the native
package-cache list pointer (cache-owned memory). -/
def alpm_db_get_pkgcache (st : AlpmState) (db : NativeDb) : Ptr × AlpmState :=
  (db.pkgcachePtr, log st "alpm_db_get_pkgcache")

/-- `alpm_db_get_group`.  Modelled from the spec: group lookup by exact
name, null when absent. -/
def alpm_db_get_group (st : AlpmState) (db : NativeDb) (name : Str) :
    Option NativeGrp × AlpmState :=
  (db.groupcache.find? (fun g => g.name == name), log st "alpm_db_get_group")

/-- `alpm_db_search`.  Modelled from the spec: matches the patterns in
the native pattern list against the cache; returns a freshly built
result list (null pointer on failure), whose contained packages remain
cache-owned. -/
def alpm_db_search (st : AlpmState) (db : NativeDb) (_patternsPtr : Ptr)
    (patterns : List Str) : Ptr × AlpmState :=
  (db.searchImpl patterns, log st "alpm_db_search")

/-! ### The binding's operations, translated from `src/alpm/src/db.rs`
and `src/alpm/src/version.rs` -/

/-- `Alpm::register_syncdb` (db.rs lines 16–24): convert the name to a
C string, call `alpm_register_syncdb`, translate a null result via
`check_null`, and wrap the handle. -/
def Alpm.register_syncdb (st : AlpmState) (name : Str) (sig_level : Nat) :
    Result NativeDb × AlpmState :=
  match cstring_new name with
  | .error e => (.error e, st)
  | .ok n =>
    let (db, st1) := alpm_register_syncdb st n sig_level
    match check_null_res st1 db with
    | .error e => (.error e, st1)
    | .ok d => (.ok d, st1)

/-- `Db::name` (db.rs lines 32–35). -/
def Db.name (st : AlpmState) (db : NativeDb) : Str × AlpmState :=
  alpm_db_get_name st db

/-- `Db::unregister` (db.rs lines 37–39): consumes the wrapper and asks
the native library to forget the database. -/
def Db.unregister (st : AlpmState) (db : NativeDb) : AlpmState :=
  (alpm_db_unregister st db).2

/-- `Db::add_server` (db.rs lines 41–45). -/
def Db.add_server (st : AlpmState) (db : NativeDb) (server : Str) :
    Result Unit × NativeDb × AlpmState :=
  match cstring_new server with
  | .error e => (.error e, db, st)
  | .ok s =>
    let (ret, db1, st1) := alpm_db_add_server st db s
    (check_ret st1 ret, db1, st1)

/-- `Db::servers` (db.rs lines 47–57): queries the current native server
list and wraps it with free policy `None`. -/
def Db.servers (st : AlpmState) (db : NativeDb) : AlpmList Str × AlpmState :=
  let (p, l, st1) := alpm_db_get_servers st db
  ({ item := p, content := l, free := FreeMethod.None }, st1)

/-- `Db::set_servers` (db.rs lines 59–66): builds a temporary native
string list, hands it to `alpm_db_set_servers`, checks the return
code. -/
def Db.set_servers (st : AlpmState) (db : NativeDb) (list : List Str) :
    Result Unit × NativeDb × AlpmState :=
  match to_strlist st list with
  | .error e => (.error e, db, st)
  | .ok (p, st1) =>
    let (ret, db1, st2) := alpm_db_set_servers st1 db p list
    (check_ret st2 ret, db1, st2)

/-- `Db::remove_server` (db.rs lines 68–72). -/
def Db.remove_server (st : AlpmState) (db : NativeDb) (server : Str) :
    Result Unit × NativeDb × AlpmState :=
  match cstring_new server with
  | .error e => (.error e, db, st)
  | .ok s =>
    let (ret, db1, st1) := alpm_db_remove_server st db s
    (check_ret st1 ret, db1, st1)

/-- `Db::pkg` (db.rs lines 74–83): exact-name cache lookup, null
translated via `check_null`; on success the `Package` wrapper has
`drop: false`. -/
def Db.pkg (st : AlpmState) (db : NativeDb) (name : Str) :
    Result Package × AlpmState :=
  match cstring_new name with
  | .error e => (.error e, st)
  | .ok n =>
    let (p, st1) := alpm_db_get_pkg st db n
    match check_null_res st1 p with
    | .error e => (.error e, st1)
    | .ok entry => (.ok { pkg := entry, drop := false }, st1)

/-- `Db::pkgs` (db.rs lines 85–97): wraps the package-cache list with
free policy `None`. -/
def Db.pkgs (st : AlpmState) (db : NativeDb) :
    Result (AlpmList NativePkg) × AlpmState :=
  let (p, st1) := alpm_db_get_pkgcache st db
  match check_null_ptr st1 p with
  | .error e => (.error e, st1)
  | .ok _ =>
    (.ok { item := p, content := db.pkgcache, free := FreeMethod.None }, st1)

/-- `Db::group` (db.rs lines 99–107). -/
def Db.group (st : AlpmState) (db : NativeDb) (name : Str) :
    Result Group × AlpmState :=
  match cstring_new name with
  | .error e => (.error e, st)
  | .ok n =>
    let (g, st1) := alpm_db_get_group st db n
    match check_null_res st1 g with
    | .error e => (.error e, st1)
    | .ok entry => (.ok { inner := entry }, st1)

/-- `Db::search` (db.rs lines 109–126): builds the temporary pattern
list, calls `alpm_db_search`, frees the temporary list immediately after
the native call (before the null check, hence on both exit paths), and
wraps the result list with free policy `FreeList`. -/
def Db.search (st : AlpmState) (db : NativeDb) (list : List Str) :
    Result (AlpmList NativePkg) × AlpmState :=
  match to_strlist st list with
  | .error e => (.error e, st)
  | .ok (p, st1) =>
    let (pkgsPtr, st2) := alpm_db_search st1 db p list
    let st3 := alpm_list_free st2 p
    match check_null_ptr st3 pkgsPtr with
    | .error e => (.error e, st3)
    | .ok _ =>
      (.ok { item := pkgsPtr, content := db.searchContent list,
             free := FreeMethod.FreeList }, st3)

/-- `Db::groups` (db.rs lines 128–140), translated exactly as written:
it calls `alpm_db_get_pkgcache` (the package cache, not the group cache)
and wraps that list with free policy `FreeList`. -/
def Db.groups (st : AlpmState) (db : NativeDb) :
    Result (AlpmList NativePkg) × AlpmState :=
  let (p, st1) := alpm_db_get_pkgcache st db
  match check_null_ptr st1 p with
  | .error e => (.error e, st1)
  | .ok _ =>
    (.ok { item := p, content := db.pkgcache, free := FreeMethod.FreeList }, st1)

/-! ### Version comparison (`src/alpm/src/version.rs`) -/

/-- `Vercmp` (version.rs lines 15–19): stateless three-way result. -/
inductive Vercmp
  | Older
  | Equal
  | Newer
deriving DecidableEq, Repr

/-- `From<c_int> for Vercmp` (version.rs lines 21–31): negative maps to
`Older`, positive to `Newer`, zero to `Equal`. -/
def vercmpFromInt (int : Int) : Vercmp :=
  if int < 0 then Vercmp.Older
  else if int > 0 then Vercmp.Newer
  else Vercmp.Equal

/-- ASCII decimal digit. -/
def isDigit (c : Nat) : Bool := 48 ≤ c && c ≤ 57

/-- ASCII letter. -/
def isAlpha (c : Nat) : Bool := (65 ≤ c && c ≤ 90) || (97 ≤ c && c ≤ 122)

/-- ASCII alphanumeric. -/
def isAlnum (c : Nat) : Bool := isDigit c || isAlpha c

/-- Lexicographic three-way comparison of byte runs (as `strcmp`). -/
def cmpLex : List Nat → List Nat → Int
  | [], [] => 0
  | [], _ :: _ => -1
  | _ :: _, [] => 1
  | x :: xs, y :: ys =>
    if x < y then -1 else if y < x then 1 else cmpLex xs ys

/-- Numeric comparison of two digit runs: strip leading zeros, the
longer run is newer, equal lengths compare lexicographically. -/
def cmpNum (a b : List Nat) : Int :=
  let a2 := a.dropWhile (fun c => c == 48)
  let b2 := b.dropWhile (fun c => c == 48)
  if a2.length < b2.length then -1
  else if b2.length < a2.length then 1
  else cmpLex a2 b2

/-- Segment loop of the distribution's version ordering.  Modelled from
the spec: split on (skip) non-alphanumeric delimiters, compare
alphanumeric runs — two digit runs numerically, two letter runs
lexicographically, a digit run is newer than a letter run; when one
side runs out, a remaining letter run marks the older version and a
remaining digit run the newer one. -/
def rpmvercmpGo : Nat → List Nat → List Nat → Int
  | 0, _, _ => 0
  | fuel + 1, one, two =>
    let one := one.dropWhile (fun c => !(isAlnum c))
    let two := two.dropWhile (fun c => !(isAlnum c))
    match one, two with
    | [], [] => 0
    | [], c :: _ => if isAlpha c then 1 else -1
    | c :: _, [] => if isAlpha c then -1 else 1
    | c1 :: _, c2 :: _ =>
      if isDigit c1 then
        if isDigit c2 then
          let r1 := one.takeWhile isDigit
          let r2 := two.takeWhile isDigit
          let c := cmpNum r1 r2
          if c != 0 then c
          else rpmvercmpGo fuel (one.drop r1.length) (two.drop r2.length)
        else 1
      else
        if isDigit c2 then -1
        else
          let r1 := one.takeWhile isAlpha
          let r2 := two.takeWhile isAlpha
          let c := cmpLex r1 r2
          if c != 0 then c
          else rpmvercmpGo fuel (one.drop r1.length) (two.drop r2.length)

/-- Version-segment comparison with sufficient fuel. -/
def rpmvercmp (a b : List Nat) : Int :=
  rpmvercmpGo (a.length + b.length + 1) a b

/-- Split a leading `epoch:` prefix (digits before a colon); a missing
epoch counts as `0`.  Modelled from the spec's pacman-style ordering. -/
def splitEpoch (s : Str) : Str × Str :=
  let ds := s.takeWhile isDigit
  match s.drop ds.length with
  | 58 :: rest => (if ds.isEmpty then [48] else ds, rest)
  | _ => ([48], s)

/-- Split off the release field after the last dash, when present.
Modelled from the spec's pacman-style ordering. -/
def splitRel (s : Str) : Str × Option Str :=
  match (s.reverse.span (fun c => c != 45)) with
  | (_, []) => (s, none)
  | (relRev, _ :: verRev) => (verRev.reverse, some relRev.reverse)

/-- `alpm_pkg_vercmp`.  Modelled from the spec: the distribution's
version-ordering algorithm — identical strings compare equal; otherwise
compare epochs, then the upstream versions segment-wise, then the
release fields when both are present. -/
def alpm_pkg_vercmp (a b : Str) : Int :=
  if a == b then 0
  else
    let (e1, r1) := splitEpoch a
    let (e2, r2) := splitEpoch b
    let (v1, rel1) := splitRel r1
    let (v2, rel2) := splitRel r2
    let c := rpmvercmp e1 e2
    if c != 0 then c
    else
      let c := rpmvercmp v1 v2
      if c != 0 then c
      else
        match rel1, rel2 with
        | some x, some y => rpmvercmp x y
        | _, _ => 0

/-- `vercmp` (version.rs lines 8–13), abstracted over the native
comparator: convert both arguments to C strings (each failing on an
embedded NUL before the comparator is consulted), then map the
comparator's result through the sign conversion. -/
def vercmpWith (cmp : Str → Str → Int) (a b : Str) : Result Vercmp :=
  match cstring_new a with
  | .error e => .error e
  | .ok a2 =>
    match cstring_new b with
    | .error e => .error e
    | .ok b2 => .ok (vercmpFromInt (cmp a2 b2))

/-- `vercmp` (version.rs lines 8–13) with the native comparator. -/
def vercmp (a b : Str) : Result Vercmp :=
  vercmpWith alpm_pkg_vercmp a b

/-- The bytes of `"1.0"`. -/
def v10 : Str := [49, 46, 48]

/-- The bytes of `"2.0"`. -/
def v20 : Str := [50, 46, 48]

/-- The bytes of `"1.0-1"`. -/
def v101 : Str := [49, 46, 48, 45, 49]

/-! ### Concrete fixtures and folds used by the theorems -/

/-- A sequence of `Db::add_server` calls, stopping at the first
failure. -/
def addServerAll (st : AlpmState) (db : NativeDb) :
    List Str → Result Unit × NativeDb × AlpmState
  | [] => (.ok (), db, st)
  | s :: rest =>
    let r := Db.add_server st db s
    match r.1 with
    | .ok _ => addServerAll r.2.2 r.2.1 rest
    | .error e => (.error e, r.2.1, r.2.2)

/-- An initial process state: empty registry, clean error code, no
binding-owned allocations. -/
def st0 : AlpmState :=
  { dbs := [], lastError := 0, nextPtr := 1, allocated := [], trace := [] }

/-- The process state right after registering the database `"a"` in
`st0`. -/
def stR : AlpmState :=
  { dbs := [newDb [97]], lastError := 0, nextPtr := 1, allocated := [],
    trace := ["alpm_register_syncdb"] }

/-- A database with a loaded (non-null) package cache and no entries. -/
def dbW : NativeDb :=
  { name := [97], servers := [], serversPtr := 3,
    pkgcache := [], pkgcachePtr := 1,
    groupcache := [], groupcachePtr := 2,
    searchImpl := fun _ => 7, searchContent := fun _ => [] }

/-- The cache entry for the package `"linux"`. -/
def pkgLinux : NativePkg := { name := [108, 105, 110, 117, 120], ptr := 10 }

/-- The cache entry for the group `"base"`. -/
def grpBase : NativeGrp := { name := [98, 97, 115, 101], ptr := 20 }

/-- A database whose package cache (`["linux"]`) and group cache
(`["base"]`) differ, with distinct native list pointers. -/
def dbC1 : NativeDb :=
  { name := [99, 111, 114, 101], servers := [], serversPtr := 0,
    pkgcache := [pkgLinux], pkgcachePtr := 1,
    groupcache := [grpBase], groupcachePtr := 2,
    searchImpl := fun _ => 0, searchContent := fun _ => [] }

/-- A list of pointers all below `p` is unchanged by filtering `p`
out. -/
theorem filter_ne_of_lt (l : List Ptr) (p : Ptr) (h : ∀ q ∈ l, q < p) :
    l.filter (fun q => q != p) = l := by
  apply List.filter_eq_self.mpr
  intro q hq
  have hlt := h q hq
  show (q != p) = true
  simp only [bne_iff_ne, ne_eq]
  exact Nat.ne_of_lt hlt

/-- C2: `Db::groups` and `Db::pkgs` both wrap the native package-cache
list pointer, `groups` with free policy `FreeList` (its drop frees the
list's nodes) and `pkgs` with free policy `None` (its drop frees
nothing), so dropping the `groups` view frees the nodes of the
cache-owned list that `pkgs` treats as non-freeable. -/
theorem C2_groups_frees_shared_pkgcache_list (st : AlpmState) (db : NativeDb)
    (h : db.pkgcachePtr ≠ 0) :
    ∃ g p, (Db.groups st db).1 = .ok g ∧ (Db.pkgs st db).1 = .ok p ∧
      g.item = db.pkgcachePtr ∧ p.item = db.pkgcachePtr ∧
      g.free = FreeMethod.FreeList ∧ p.free = FreeMethod.None ∧
      g.dropEffect = DropEffect.nodesOnly db.pkgcachePtr ∧
      p.dropEffect = DropEffect.nothing := by
  refine ⟨{ item := db.pkgcachePtr, content := db.pkgcache,
            free := FreeMethod.FreeList },
          { item := db.pkgcachePtr, content := db.pkgcache,
            free := FreeMethod.None }, ?_, ?_, rfl, rfl, rfl, rfl, rfl, rfl⟩ <;>
    simp [Db.groups, Db.pkgs, alpm_db_get_pkgcache, check_null_ptr, h]

/-- Witness for C2 at a concrete database with package-cache pointer
`1`. -/
theorem C2_witness :
    ∃ g p, (Db.groups st0 dbW).1 = .ok g ∧ (Db.pkgs st0 dbW).1 = .ok p ∧
      g.item = dbW.pkgcachePtr ∧ p.item = dbW.pkgcachePtr ∧
      g.free = FreeMethod.FreeList ∧ p.free = FreeMethod.None ∧
      g.dropEffect = DropEffect.nodesOnly dbW.pkgcachePtr ∧
      p.dropEffect = DropEffect.nothing :=
  C2_groups_frees_shared_pkgcache_list st0 dbW (by decide)

/-- C1 (exhibiting the code bug): on a database whose group cache
(`["base"]`) differs from its package cache (`["linux"]`), `Db::groups`
succeeds with a view over the package-cache pointer, enumerating the
package-cache entries and not the database's groups. -/
theorem C1_groups_reads_package_cache :
    ∃ g, (Db.groups st0 dbC1).1 = .ok g ∧
      g.item = dbC1.pkgcachePtr ∧ g.item ≠ dbC1.groupcachePtr ∧
      g.content.map NativePkg.name = dbC1.pkgcache.map NativePkg.name ∧
      g.content.map NativePkg.name ≠ dbC1.groupcache.map NativeGrp.name :=
  ⟨{ item := 1, content := [pkgLinux], free := FreeMethod.FreeList },
   rfl, rfl, by decide, rfl, by decide⟩

/-- C5: `Db::servers` and `Db::pkgs` return non-owning views with free
policy `None` whose drop frees nothing; `servers` reads the database's
current server list on every call — in particular a call made after a
successful `set_servers` yields the newly set list, not a stale
snapshot. -/
theorem C5_servers_pkgs_nonowning (st : AlpmState) (db : NativeDb)
    (h : db.pkgcachePtr ≠ 0) :
    (Db.servers st db).1.free = FreeMethod.None ∧
    (Db.servers st db).1.content = db.servers ∧
    (Db.servers st db).1.dropEffect = DropEffect.nothing ∧
    (∃ v, (Db.pkgs st db).1 = .ok v ∧ v.free = FreeMethod.None ∧
      v.content = db.pkgcache ∧ v.item = db.pkgcachePtr ∧
      v.dropEffect = DropEffect.nothing) ∧
    (∀ l, (¬ ∃ s ∈ l, 0 ∈ s) →
      (Db.servers (Db.set_servers st db l).2.2
        (Db.set_servers st db l).2.1).1.content = l) := by
  refine ⟨rfl, rfl, rfl,
    ⟨{ item := db.pkgcachePtr, content := db.pkgcache,
       free := FreeMethod.None }, ?_, rfl, rfl, rfl, rfl⟩, ?_⟩
  · simp [Db.pkgs, alpm_db_get_pkgcache, check_null_ptr, h]
  · intro l hl
    simp [Db.set_servers, to_strlist, hl, alpm_db_set_servers, Db.servers,
      alpm_db_get_servers]

/-- Witness for C5 at a concrete database. -/
theorem C5_witness :
    (Db.servers st0 dbW).1.free = FreeMethod.None ∧
    (Db.servers st0 dbW).1.content = dbW.servers ∧
    (Db.servers st0 dbW).1.dropEffect = DropEffect.nothing ∧
    (∃ v, (Db.pkgs st0 dbW).1 = .ok v ∧ v.free = FreeMethod.None ∧
      v.content = dbW.pkgcache ∧ v.item = dbW.pkgcachePtr ∧
      v.dropEffect = DropEffect.nothing) ∧
    (∀ l, (¬ ∃ s ∈ l, 0 ∈ s) →
      (Db.servers (Db.set_servers st0 dbW l).2.2
        (Db.set_servers st0 dbW l).2.1).1.content = l) :=
  C5_servers_pkgs_nonowning st0 dbW (by decide)

/-- C3: `Db::search` leaves the binding's native-list allocations
exactly as they were on every exit path — the temporary pattern list it
builds is released right after the native call, whether that call
succeeds or reports failure — it does invoke the native search whenever
the pattern list converts, and a successful result is a view over the
native result list with free policy `FreeList`, whose drop frees the
result list's nodes but not the contained packages. -/
theorem C3_search_releases_temp_list (st : AlpmState) (db : NativeDb)
    (pats : List Str) (hf : ∀ q ∈ st.allocated, q < st.nextPtr) :
    (Db.search st db pats).2.allocated = st.allocated ∧
    ((¬ ∃ s ∈ pats, 0 ∈ s) →
      "alpm_db_search" ∈ (Db.search st db pats).2.trace) ∧
    (∀ res, (Db.search st db pats).1 = .ok res →
      res.free = FreeMethod.FreeList ∧
      res.item = db.searchImpl pats ∧
      res.dropEffect = DropEffect.nodesOnly res.item) := by
  have halloc : (st.allocated ++ [st.nextPtr]).filter
      (fun q => q != st.nextPtr) = st.allocated := by
    rw [List.filter_append, filter_ne_of_lt st.allocated st.nextPtr hf]
    simp
  by_cases hnul : ∃ s ∈ pats, 0 ∈ s
  · refine ⟨?_, fun h => absurd hnul h, fun res hres => ?_⟩
    · simp [Db.search, to_strlist, hnul]
    · simp [Db.search, to_strlist, hnul] at hres
  · by_cases hz : db.searchImpl pats = 0
    · refine ⟨?_, ?_, fun res hres => ?_⟩
      · simp [Db.search, to_strlist, hnul, alpm_db_search, alpm_list_free,
          check_null_ptr, hz, log, halloc]
      · intro _
        simp [Db.search, to_strlist, hnul, alpm_db_search, alpm_list_free,
          check_null_ptr, hz, log]
      · simp [Db.search, to_strlist, hnul, alpm_db_search, alpm_list_free,
          check_null_ptr, hz, log] at hres
    · refine ⟨?_, ?_, fun res hres => ?_⟩
      · simp [Db.search, to_strlist, hnul, alpm_db_search, alpm_list_free,
          check_null_ptr, hz, log, halloc]
      · intro _
        simp [Db.search, to_strlist, hnul, alpm_db_search, alpm_list_free,
          check_null_ptr, hz, log]
      · simp [Db.search, to_strlist, hnul, alpm_db_search, alpm_list_free,
          check_null_ptr, hz, log] at hres
        subst hres
        exact ⟨rfl, rfl, rfl⟩

/-- Witness for C3: a concrete search on a clean state. -/
theorem C3_witness :
    (Db.search st0 dbW [[97]]).2.allocated = st0.allocated ∧
    ((¬ ∃ s ∈ [[97]], 0 ∈ s) →
      "alpm_db_search" ∈ (Db.search st0 dbW [[97]]).2.trace) ∧
    (∀ res, (Db.search st0 dbW [[97]]).1 = .ok res →
      res.free = FreeMethod.FreeList ∧
      res.item = dbW.searchImpl [[97]] ∧
      res.dropEffect = DropEffect.nodesOnly res.item) :=
  C3_search_releases_temp_list st0 dbW [[97]] (by decide)

/-- C4: every string-taking public operation rejects an input containing
an embedded NUL with the conversion error `InvalidName`, returning the
process state unchanged — no native call is attempted (for `vercmp`,
the result is the same error whatever the native comparator would
return, so the comparator is never consulted). -/
theorem C4_nul_rejected_before_native_call :
    (∀ st name sig, 0 ∈ name →
      Alpm.register_syncdb st name sig = (.error Error.InvalidName, st)) ∧
    (∀ st db s, 0 ∈ s →
      Db.add_server st db s = (.error Error.InvalidName, db, st)) ∧
    (∀ st db s, 0 ∈ s →
      Db.remove_server st db s = (.error Error.InvalidName, db, st)) ∧
    (∀ st db l s, s ∈ l → 0 ∈ s →
      Db.set_servers st db l = (.error Error.InvalidName, db, st)) ∧
    (∀ st db n, 0 ∈ n →
      Db.pkg st db n = (.error Error.InvalidName, st)) ∧
    (∀ st db n, 0 ∈ n →
      Db.group st db n = (.error Error.InvalidName, st)) ∧
    (∀ st db l s, s ∈ l → 0 ∈ s →
      Db.search st db l = (.error Error.InvalidName, st)) ∧
    (∀ cmp a b, 0 ∈ a ∨ 0 ∈ b →
      vercmpWith cmp a b = .error Error.InvalidName) := by
  refine ⟨?_, ?_, ?_, ?_, ?_, ?_, ?_, ?_⟩
  · intro st name sig h
    simp [Alpm.register_syncdb, cstring_new, h]
  · intro st db s h
    simp [Db.add_server, cstring_new, h]
  · intro st db s h
    simp [Db.remove_server, cstring_new, h]
  · intro st db l s hs h
    have : ∃ x ∈ l, 0 ∈ x := ⟨s, hs, h⟩
    simp [Db.set_servers, to_strlist, this]
  · intro st db n h
    simp [Db.pkg, cstring_new, h]
  · intro st db n h
    simp [Db.group, cstring_new, h]
  · intro st db l s hs h
    have : ∃ x ∈ l, 0 ∈ x := ⟨s, hs, h⟩
    simp [Db.search, to_strlist, this]
  · intro cmp a b h
    by_cases ha : 0 ∈ a
    · simp [vercmpWith, cstring_new, ha]
    · have hb : 0 ∈ b := h.resolve_left ha
      simp [vercmpWith, cstring_new, ha, hb]

/-- Witness for C4: registering a database whose name is the single NUL
byte fails with `InvalidName` and leaves the state untouched. -/
theorem C4_witness :
    Alpm.register_syncdb st0 [0] 0 = (.error Error.InvalidName, st0) :=
  C4_nul_rejected_before_native_call.1 st0 [0] 0 (by decide)

/-- Folding `Db::add_server` over a list of NUL-free URLs succeeds and
appends them, in order, to the database's server list. -/
theorem addServerAll_servers (urls : List Str) :
    ∀ (st : AlpmState) (db : NativeDb), (∀ s ∈ urls, 0 ∉ s) →
      (addServerAll st db urls).1 = .ok () ∧
      ((addServerAll st db urls).2.1).servers = db.servers ++ urls := by
  induction urls with
  | nil =>
    intro st db _
    exact ⟨rfl, by simp [addServerAll]⟩
  | cons s rest ih =>
    intro st db h
    have hs : 0 ∉ s := h s (by simp)
    have hrest : ∀ x ∈ rest, 0 ∉ x := fun x hx => h x (by simp [hx])
    have hadd : Db.add_server st db s =
        (.ok (), { db with servers := db.servers ++ [s] },
         log st "alpm_db_add_server") := by
      simp [Db.add_server, cstring_new, hs, alpm_db_add_server, check_ret]
    obtain ⟨h1, h2⟩ := ih (log st "alpm_db_add_server")
      { db with servers := db.servers ++ [s] } hrest
    refine ⟨?_, ?_⟩ <;> simp [addServerAll, hadd, h1, h2]

/-- C6: NUL-free `add_server` calls append URLs in exactly the order
added (as `servers()` then reports); a successful `set_servers(l)`
followed by `servers()` yields exactly `l`; and `set_servers(servers())`
leaves the observable server list unchanged. -/
theorem C6_server_list_round_trip :
    (∀ st db urls, (∀ s ∈ urls, 0 ∉ s) →
      (addServerAll st db urls).1 = .ok () ∧
      (Db.servers (addServerAll st db urls).2.2
        (addServerAll st db urls).2.1).1.content = db.servers ++ urls) ∧
    (∀ st db l, (∀ s ∈ l, 0 ∉ s) →
      (Db.set_servers st db l).1 = .ok () ∧
      (Db.servers (Db.set_servers st db l).2.2
        (Db.set_servers st db l).2.1).1.content = l) ∧
    (∀ st db, (∀ s ∈ db.servers, 0 ∉ s) →
      (Db.set_servers st db ((Db.servers st db).1.content)).1 = .ok () ∧
      ((Db.set_servers st db ((Db.servers st db).1.content)).2.1).servers
        = db.servers) := by
  have hset : ∀ (st : AlpmState) (db : NativeDb) (l : List Str),
      (∀ s ∈ l, 0 ∉ s) →
      (Db.set_servers st db l).1 = .ok () ∧
      ((Db.set_servers st db l).2.1).servers = l := by
    intro st db l h
    have hnul : ¬ ∃ s ∈ l, 0 ∈ s := by
      rintro ⟨s, hs, h0⟩
      exact h s hs h0
    constructor <;>
      simp [Db.set_servers, to_strlist, hnul, alpm_db_set_servers, check_ret]
  refine ⟨?_, ?_, ?_⟩
  · intro st db urls h
    obtain ⟨h1, h2⟩ := addServerAll_servers urls st db h
    exact ⟨h1, by simp [Db.servers, alpm_db_get_servers, h2]⟩
  · intro st db l h
    obtain ⟨h1, h2⟩ := hset st db l h
    exact ⟨h1, by simp [Db.servers, alpm_db_get_servers, h2]⟩
  · intro st db h
    exact hset st db db.servers h

/-- Witness for C6: adding the servers `"a"` then `"b"` to a database
with an empty server list yields exactly those two URLs in order. -/
theorem C6_witness :
    (addServerAll st0 dbW [[97], [98]]).1 = .ok () ∧
    (Db.servers (addServerAll st0 dbW [[97], [98]]).2.2
      (addServerAll st0 dbW [[97], [98]]).2.1).1.content
      = dbW.servers ++ [[97], [98]] :=
  C6_server_list_round_trip.1 st0 dbW [[97], [98]] (by decide)

/-- C7: a successful `register_syncdb(name, _)` followed by `.name()` on
the returned database returns exactly the registered name. -/
theorem C7_register_name_round_trip (st st1 : AlpmState) (name : Str)
    (sig : Nat) (db : NativeDb)
    (h : Alpm.register_syncdb st name sig = (.ok db, st1)) :
    (Db.name st1 db).1 = name := by
  unfold Alpm.register_syncdb at h
  by_cases hn : 0 ∈ name
  · simp [cstring_new, hn] at h
  · rw [show cstring_new name = .ok name from by simp [cstring_new, hn]] at h
    by_cases hd : st.dbs.any (fun d => d.name == name)
    · simp [alpm_register_syncdb, hd, check_null_res] at h
    · simp [alpm_register_syncdb, hd, check_null_res] at h
      obtain ⟨hdb, _⟩ := h
      simp [Db.name, alpm_db_get_name, ← hdb, newDb]

/-- Witness for C7: registering the database `"a"` in the initial state
and reading its name back gives `"a"`. -/
theorem C7_witness : (Db.name stR (newDb [97])).1 = [97] :=
  C7_register_name_round_trip st0 stR [97] 0 (newDb [97]) rfl

/-- C8: for a valid (NUL-free) name, `Db::pkg` fails with the last
native error code when no cache entry of that exact name exists (the
native lookup returns null), and on success returns a `Package` that is
one of the database's cache entries, of exactly that name, with its
deep-free-on-drop flag unset. -/
theorem C8_pkg_lookup_translation (st : AlpmState) (db : NativeDb)
    (name : Str) (h : 0 ∉ name) :
    ((∀ q ∈ db.pkgcache, q.name ≠ name) →
      Db.pkg st db name =
        (.error (Error.Native st.lastError), log st "alpm_db_get_pkg")) ∧
    (∀ r st2, Db.pkg st db name = (.ok r, st2) →
      r.drop = false ∧ r.pkg ∈ db.pkgcache ∧ r.pkg.name = name) := by
  constructor
  · intro habs
    have hfind : db.pkgcache.find? (fun p => p.name == name) = none := by
      apply List.find?_eq_none.mpr
      intro x hx
      simpa [beq_iff_eq] using habs x hx
    simp [Db.pkg, cstring_new, h, alpm_db_get_pkg, hfind, check_null_res, log]
  · intro r st2 hr
    unfold Db.pkg at hr
    rw [show cstring_new name = .ok name from by simp [cstring_new, h]] at hr
    cases hfind : db.pkgcache.find? (fun p => p.name == name) with
    | none =>
      simp [alpm_db_get_pkg, hfind, check_null_res] at hr
    | some entry =>
      simp [alpm_db_get_pkg, hfind, check_null_res] at hr
      have hname : entry.name = name := by
        simpa [beq_iff_eq] using List.find?_some hfind
      have hmem : entry ∈ db.pkgcache := List.mem_of_find?_eq_some hfind
      rw [← hr.1]
      exact ⟨rfl, hmem, hname⟩

/-- Witness for C8: on a database whose cache holds only `"linux"`,
looking up `"a"` fails with the last native error code, and looking up
`"linux"` succeeds with the cache entry and `drop = false`. -/
theorem C8_witness :
    Db.pkg st0 dbC1 [97] =
      (.error (Error.Native st0.lastError), log st0 "alpm_db_get_pkg") ∧
    ({ pkg := pkgLinux, drop := false } : Package).drop = false ∧
    ({ pkg := pkgLinux, drop := false } : Package).pkg ∈ dbC1.pkgcache ∧
    ({ pkg := pkgLinux, drop := false } : Package).pkg.name
      = [108, 105, 110, 117, 120] :=
  ⟨(C8_pkg_lookup_translation st0 dbC1 [97] (by decide)).1 (by decide),
   (C8_pkg_lookup_translation st0 dbC1 [108, 105, 110, 117, 120]
     (by decide)).2 { pkg := pkgLinux, drop := false }
     (log st0 "alpm_db_get_pkg") rfl⟩

/-- C9: on NUL-free inputs `vercmp` succeeds with the three-way result
given by the sign of the native comparison (negative is `Older`, zero is
`Equal`, positive is `Newer`); in particular `"1.0"` against `"2.0"` is
`Older`, `"1.0-1"` against itself is `Equal`, and `"2.0"` against
`"1.0"` is `Newer` under the pacman-style ordering. -/
theorem C9_vercmp_sign_and_examples :
    (∀ a b : Str, 0 ∉ a → 0 ∉ b →
      vercmp a b = .ok (vercmpFromInt (alpm_pkg_vercmp a b))) ∧
    (∀ i : Int, (i < 0 → vercmpFromInt i = Vercmp.Older) ∧
      (i = 0 → vercmpFromInt i = Vercmp.Equal) ∧
      (0 < i → vercmpFromInt i = Vercmp.Newer)) ∧
    vercmp v10 v20 = .ok Vercmp.Older ∧
    vercmp v101 v101 = .ok Vercmp.Equal ∧
    vercmp v20 v10 = .ok Vercmp.Newer := by
  refine ⟨?_, ?_, rfl, rfl, rfl⟩
  · intro a b ha hb
    simp [vercmp, vercmpWith, cstring_new, ha, hb]
  · intro i
    refine ⟨fun h => ?_, fun h => ?_, fun h => ?_⟩
    · simp [vercmpFromInt, h]
    · subst h
      rfl
    · have h1 : ¬ i < 0 := by omega
      have h2 : i > 0 := h
      simp [vercmpFromInt, h1, h2]

/-- Witness for C9: the universally quantified sign characterization at
`"1.0"` and `"2.0"`. -/
theorem C9_witness :
    vercmp v10 v20 = .ok (vercmpFromInt (alpm_pkg_vercmp v10 v20)) :=
  C9_vercmp_sign_and_examples.1 v10 v20 (by decide) (by decide)

end AlpmRs
